import Mathlib

/-!
Verification of the gerber_to_scad geometric conversion engine.

This file gives a shallow embedding of the core of the repository
(`gerber_to_scad/conversion.py`, `gerber_to_scad/gerber_helpers.py`,
`gerber_to_scad/vector.py`, `gerber_to_scad/geometry.py`) and proves
properties of the embedded functions.

Modelling conventions:
* Python floats are modelled as real numbers (`ℝ`); the contour stitcher,
  which only compares already-rounded coordinates, is additionally stated
  over an arbitrary linear ordered field so that it can be evaluated
  exactly over `ℚ`.
* `round(x, n)` (round to `n` decimal places) is modelled with Mathlib's
  `round` (`round x = ⌊x + 1/2⌋`).  Python rounds ties to even; no theorem
  below depends on the direction in which exact ties are rounded.
* Exceptions (`NotImplementedError`, the flash `Exception`, `KeyError` /
  `IndexError`) are modelled with `Except` / `Option` results.
* External collaborators (scipy's convex hull, solidpython's
  `offset_points`) are taken as opaque function parameters, and the
  OpenSCAD object tree built by the assembler is modelled as a syntax tree.
-/

open Real

/-- The 2-d vector class of `vector.py`, polymorphic in the coordinate
field (the source works on floats throughout). -/
structure V (α : Type) where
  x : α
  y : α
deriving DecidableEq, Repr

namespace V

/-- `V.from_tuple` / the `V(x, y)` constructor. -/
def from_tuple {α : Type} (coordinates : α × α) : V α :=
  ⟨coordinates.1, coordinates.2⟩

/-- `V.as_tuple`. -/
def as_tuple {α : Type} (v : V α) : α × α := (v.x, v.y)

/-- `V.__add__`. -/
def add {α : Type} [Add α] (v w : V α) : V α := ⟨v.x + w.x, v.y + w.y⟩

/-- `V.__sub__`. -/
def sub {α : Type} [Sub α] (v w : V α) : V α := ⟨v.x - w.x, v.y - w.y⟩

/-- `V.__mul__` with a scalar (`other * self.x`, `other * self.y`). -/
def smul {α : Type} [Mul α] (v : V α) (other : α) : V α :=
  ⟨other * v.x, other * v.y⟩

/-- `V.__div__` by a scalar. -/
def sdiv {α : Type} [Div α] (v : V α) (other : α) : V α :=
  ⟨v.x / other, v.y / other⟩

/-- `V.abs_sq`: `abs(self.x * self.x + self.y * self.y)`. -/
def abs_sq (v : V ℝ) : ℝ := |v.x * v.x + v.y * v.y|

/-- `V.__abs__`: `math.sqrt(self.abs_sq())`. -/
noncomputable def absV (v : V ℝ) : ℝ := Real.sqrt v.abs_sq

/-- `V.rotate(theta, as_degrees)`: rotation by `theta` about the origin;
`math.radians(theta) = theta * π / 180`. -/
noncomputable def rotate (v : V ℝ) (theta : ℝ) (as_degrees : Bool) : V ℝ :=
  let t := if as_degrees then theta * Real.pi / 180 else theta
  ⟨Real.cos t * v.x - Real.sin t * v.y, Real.sin t * v.x + Real.cos t * v.y⟩

end V

/-- `make_v` of `conversion.py`: round both coordinates to
`decimal_places` decimal places.  `roundTo x n = round(x, n)`. -/
noncomputable def roundTo (x : ℝ) (decimal_places : ℕ) : ℝ :=
  ((round (x * 10 ^ decimal_places) : ℤ) : ℝ) / 10 ^ decimal_places

/-- `make_v` with the source's default `decimal_places=3`
(every call site in `conversion.py` uses the default). -/
noncomputable def make_v (v : ℝ × ℝ) : V ℝ :=
  ⟨roundTo v.1 3, roundTo v.2 3⟩

/-- An aperture object as consumed by `gerber_helpers.py`:
`getattr(aperture, "diameter", 0)` etc. default missing attributes to 0,
so all three attributes are modelled as total fields. -/
structure Aperture where
  diameter : ℝ
  width : ℝ
  height : ℝ

/-- `gerber_helpers.get_aperture_size`: `diameter or width or height`
(Python `or` returns the first non-zero operand, else the last one). -/
noncomputable def get_aperture_size (aperture : Aperture) : ℝ :=
  if aperture.diameter ≠ 0 then aperture.diameter
  else if aperture.width ≠ 0 then aperture.width
  else aperture.height

/-- `gerber_helpers.has_wide_aperture`.  `length` is `float | None`;
`if aperture_size and length` is the Python truthiness test (`None` and
`0.0` are falsy). -/
noncomputable def has_wide_aperture (aperture : Aperture) (length : Option ℝ) : Bool :=
  let aperture_size := get_aperture_size aperture
  if aperture_size = 0 then false
  else
    match length with
    | some l => if l ≠ 0 then decide (aperture_size > l / 10) else true
    | none => true

/-- `MAX_SEGMENT_LENGTH` of `conversion.py`. -/
noncomputable def MAX_SEGMENT_LENGTH : ℝ := 0.1

/-- `rect_from_line`: thicken a line primitive (given by its endpoints and
aperture) into a 4-corner rectangle. -/
noncomputable def rect_from_line (start stop : ℝ × ℝ) (aperture : Aperture) : List (V ℝ) :=
  let r := get_aperture_size aperture / 2
  let start_v := V.from_tuple start
  let end_v := V.from_tuple stop
  let dir0 := end_v.sub start_v
  let abs_dir_v := dir0.absV
  let dir1 := if abs_dir_v ≠ 0 then dir0.sdiv abs_dir_v else (⟨0, 0⟩ : V ℝ)
  let v_len := Real.sqrt 2 * r
  let dir_v := dir1.smul v_len
  [start_v.add (dir_v.rotate 135 true),
   start_v.add (dir_v.rotate (-135) true),
   end_v.add (dir_v.rotate (-45) true),
   end_v.add (dir_v.rotate 45 true)]

/-- The closed set of primitive variants dispatched on by
`primitive_to_shape`.  `amGroup` stands for `AMGroup` (and with it any
variant that reaches the final `else: raise NotImplementedError` branch).
`rectangle` carries the `position` (center) its construction sites pass;
the external library's `lower_left` property is `position - (w/2, h/2)`. -/
inductive Prim where
  | line (start stop : ℝ × ℝ) (aperture : Aperture)
  | circle (position : ℝ × ℝ) (diameter : ℝ)
  | rectangle (position : ℝ × ℝ) (width height : ℝ)
  | centerLine (center : ℝ × ℝ) (width height rotation : ℝ)
  | region (sub_primitives : List Prim)
  | obround (subshapes : List Prim)
  | arc (center : ℝ × ℝ) (radius start_angle end_angle : ℝ) (counterclockwise : Bool)
  | amOutline (points : List (ℝ × ℝ))
  | vectorLine (start stop : ℝ × ℝ) (width : ℝ)
  | amComment
  | amGroup

/-- The fatal error taxonomy of the conversion engine. -/
inductive ConvError where
  /-- `NotImplementedError` raised at the end of `primitive_to_shape`. -/
  | unsupportedPrimitive
  /-- `Exception("No aperture set on flash object coordinates!")`. -/
  | noApertureSelected
  /-- `NotImplementedError(f"Unsupported flash aperture ...")`. -/
  | unsupportedApertureShape
  /-- A Python `KeyError` / `IndexError` (dict or list lookup failure). -/
  | keyError
deriving DecidableEq, Repr

/-- The vertex generation loop of the `Arc` branch of
`primitive_to_shape`: starting from `start_angle`, emit
`cx + cos(angle) * radius, cy + sin(angle) * radius` and step the angle by
`+angle_delta` (counter-clockwise) or `-angle_delta` (clockwise). -/
noncomputable def arc_loop (cx cy radius angle_delta : ℝ) (ccw : Bool) :
    ℝ → ℕ → List (V ℝ)
  | _, 0 => []
  | angle, n + 1 =>
      make_v (cx + Real.cos angle * radius, cy + Real.sin angle * radius) ::
        arc_loop cx cy radius angle_delta ccw
          (if ccw then angle + angle_delta else angle - angle_delta) n

/-- The 4-corner rectangle returned by `geometry.bounding_box` (the
`Rect` tuple type of `geometry.py`). -/
structure Rect4 where
  c0 : V ℝ
  c1 : V ℝ
  c2 : V ℝ
  c3 : V ℝ

/-- `list(rect)`. -/
def Rect4.toList (r : Rect4) : List (V ℝ) := [r.c0, r.c1, r.c2, r.c3]

/-- `min` of a list of reals (`min(shape, key=...)`; total with a junk
value on the empty list, on which the Python raises). -/
noncomputable def list_min (l : List ℝ) : ℝ :=
  match l with
  | [] => 0
  | a :: rest => rest.foldl min a

/-- `max` of a list of reals. -/
noncomputable def list_max (l : List ℝ) : ℝ :=
  match l with
  | [] => 0
  | a :: rest => rest.foldl max a

/-- `geometry.bounding_box(shape, width, height, margin)`. -/
noncomputable def bounding_box (shape : List (V ℝ)) (width height margin : ℝ) : Rect4 :=
  let min_x := list_min (shape.map V.x)
  let max_x := list_max (shape.map V.x)
  let min_y := list_min (shape.map V.y)
  let max_y := list_max (shape.map V.y)
  if (width > 0 ∧ height > 0) ∨ margin > 0 then
    let margin_x := if margin > 0 then margin else (width - (max_x - min_x)) / 2
    let margin_y := if margin > 0 then margin else (height - (max_y - min_y)) / 2
    ⟨⟨min_x - margin_x, min_y - margin_y⟩, ⟨min_x - margin_x, max_y + margin_y⟩,
     ⟨max_x + margin_x, max_y + margin_y⟩, ⟨max_x + margin_x, min_y - margin_y⟩⟩
  else
    ⟨⟨min_x, min_y⟩, ⟨min_x, max_y⟩, ⟨max_x, max_y⟩, ⟨max_x, min_y⟩⟩

mutual

/-- `primitive_to_shape(p, in_region, simplify_regions)` of
`conversion.py`.  `hull` is the external convex-hull collaborator
(`geometry.convex_hull`, backed by scipy).  The `to_metric` unit
normalization at the top of the source function is a precondition handled
by the external parser; primitives here are already metric. -/
noncomputable def primitive_to_shape (hull : List (V ℝ) → List (V ℝ)) :
    Prim → Bool → Bool → Except ConvError (List (V ℝ))
  | .line start stop aperture, in_region, _ =>
      let length := Real.sqrt ((start.1 - stop.1) ^ 2 + (start.2 - stop.2) ^ 2)
      if !in_region && has_wide_aperture aperture (some length) then
        .ok (rect_from_line start stop aperture)
      else
        .ok [make_v start, make_v stop]
  | .circle position diameter, _, _ =>
      let circ := Real.pi * diameter
      let num_segments := (max 1 (round (circ / MAX_SEGMENT_LENGTH))).toNat
      .ok ((List.range num_segments).map (fun s : ℕ =>
        let angle := ((s : ℕ) : ℝ) * (2 * Real.pi / ((num_segments : ℕ) : ℝ))
        make_v (position.1 + Real.cos angle * diameter / 2,
                position.2 + Real.sin angle * diameter / 2)))
  | .rectangle position width height, _, _ =>
      let lower_left := (position.1 - width / 2, position.2 - height / 2)
      let v1 := make_v lower_left
      let v2 := make_v (v1.x, v1.y + height)
      let v3 := make_v (v2.x + width, v2.y)
      let v4 := make_v (v1.x + width, v1.y)
      .ok [v1, v2, v3, v4]
  | .centerLine center width height rotation, _, _ =>
      let angle_rad := rotation * Real.pi / 180
      let cos_angle := Real.cos angle_rad
      let sin_angle := Real.sin angle_rad
      let p1 := (center.1 - width / 2, center.2 - height / 2)
      let p2 := (center.1 + width / 2, center.2 - height / 2)
      let p3 := (center.1 + width / 2, center.2 + height / 2)
      let p4 := (center.1 - width / 2, center.2 + height / 2)
      .ok [⟨p1.1 * cos_angle - p1.2 * sin_angle, p1.1 * sin_angle + p1.2 * cos_angle⟩,
           ⟨p2.1 * cos_angle - p2.2 * sin_angle, p2.1 * sin_angle + p2.2 * cos_angle⟩,
           ⟨p3.1 * cos_angle - p3.2 * sin_angle, p3.1 * sin_angle + p3.2 * cos_angle⟩,
           ⟨p4.1 * cos_angle - p4.2 * sin_angle, p4.1 * sin_angle + p4.2 * cos_angle⟩]
  | .region sub_primitives, _, simplify_regions =>
      (region_vertices hull sub_primitives []).map (fun vertices =>
        if simplify_regions then (bounding_box vertices 0 0 0).toList else vertices)
  | .obround subshapes, _, _ =>
      (obround_vertices hull subshapes).map (fun vertices => hull vertices)
  | .arc center radius start_angle end_angle ccw, _, _ =>
      let sweep_angle :=
        if ccw then
          if end_angle ≤ start_angle then 360 - (start_angle - end_angle)
          else start_angle - end_angle
        else
          if end_angle ≥ start_angle then 360 - (end_angle - start_angle)
          else start_angle - end_angle
      let arc_length := radius * sweep_angle
      let num_segments := (max 1 (round (arc_length / MAX_SEGMENT_LENGTH))).toNat
      let angle_delta := sweep_angle / (num_segments : ℝ)
      .ok (arc_loop center.1 center.2 radius angle_delta ccw start_angle num_segments)
  | .amOutline points, _, _ => .ok (points.map make_v)
  | .vectorLine start stop width, _, _ =>
      let start_v := V.from_tuple start
      let end_v := V.from_tuple stop
      let dir0 := end_v.sub start_v
      let abs_dir_v := dir0.absV
      let dir1 := if abs_dir_v ≠ 0 then dir0.sdiv abs_dir_v else (⟨0, 0⟩ : V ℝ)
      let dir_v := dir1.smul (width / 2)
      .ok [start_v.add (dir_v.rotate 90 true),
           start_v.add (dir_v.rotate (-90) true),
           end_v.add (dir_v.rotate (-90) true),
           end_v.add (dir_v.rotate 90 true)]
  | .amComment, _, _ => .ok []
  | .amGroup, _, _ => .error .unsupportedPrimitive

/-- The `Region` accumulation loop: convert every child with
`in_region=True` and append the vertices not already present. -/
noncomputable def region_vertices (hull : List (V ℝ) → List (V ℝ)) :
    List Prim → List (V ℝ) → Except ConvError (List (V ℝ))
  | [], acc => .ok acc
  | p :: rest, acc =>
      (primitive_to_shape hull p true false).bind (fun s =>
        region_vertices hull rest (acc ++ s.filter (fun v => decide (¬ v ∈ acc))))

/-- The `Obround` accumulation loop: convert every sub-shape and
concatenate the vertices (no deduplication). -/
noncomputable def obround_vertices (hull : List (V ℝ) → List (V ℝ)) :
    List Prim → Except ConvError (List (V ℝ))
  | [] => .ok []
  | p :: rest =>
      (primitive_to_shape hull p false false).bind (fun s =>
        (obround_vertices hull rest).map (fun vs => s ++ vs))

end

/-! ### The contour stitcher (`find_line_closest_to_point`, `lines_to_shapes`)

The stitcher only manipulates and compares coordinates (no trigonometry),
so it is stated over an arbitrary linear ordered field; instantiating at
`ℚ` makes it exactly evaluable, matching the fact that every Python float
is a rational number. -/

section Stitcher

variable {α : Type} [LinearOrderedField α]

/-- The result dictionary of `find_line_closest_to_point`.  The three
fields are `None` together (no candidate within tolerance) or set
together. -/
structure ClosestInfo (α : Type) where
  closest_line_index : Option ℕ
  close_vertex : Option (V α)
  far_vertex : Option (V α)

/-- The inner `for vertex_index, vertex in enumerate(line)` loop of
`find_line_closest_to_point`.  The running state is `(d, info)`; `d` is
`None` for the initial `float("inf")`.  `far_vertex` is
`line[vertex_index - 1]`, which for index 0 is Python's `line[-1]`, the
last vertex (the `getD` defaults are never reached: the scanned vertex
itself is a member of `full`). -/
def scan_vertices (point : V α) (full : List (V α)) (line_index : ℕ) :
    List (V α) → ℕ → Option α × ClosestInfo α → Option α × ClosestInfo α
  | [], _, st => st
  | vertex :: rest, vertex_index, st =>
      let point_d := (vertex.x - point.x) ^ 2 + (vertex.y - point.y) ^ 2
      let closer : Bool := match st.1 with | none => true | some d => decide (point_d < d)
      let st2 :=
        if closer && decide (point_d < (1 / 1000 : α) ^ 2) then
          (some point_d,
           ⟨some line_index, some vertex,
            some (if vertex_index = 0 then full.getLastD vertex
                  else full.getD (vertex_index - 1) vertex)⟩)
        else st
      scan_vertices point full line_index rest (vertex_index + 1) st2

/-- The outer `for line_index, line in enumerate(lines)` loop. -/
def find_go (point : V α) : List (List (V α)) → ℕ → Option α × ClosestInfo α →
    Option α × ClosestInfo α
  | [], _, st => st
  | line :: rest, line_index, st =>
      find_go point rest (line_index + 1) (scan_vertices point line line_index line 0 st)

/-- `find_line_closest_to_point(point, lines)`. -/
def find_line_closest_to_point (point : V α) (lines : List (List (V α))) : ClosestInfo α :=
  (find_go point lines 0 (none, ⟨none, none, none⟩)).2

/-- The `while True` loop of `lines_to_shapes`.  An empty current shape
makes `shape[0]` raise an `IndexError` in the source, modelled as `none`.
The fuel argument only bounds the iteration count (each iteration removes
one line from the pool, so `pool.length + 1` iterations always suffice);
running out of fuel cannot happen on the entry call below. -/
def stitch_go : ℕ → List (V α) → List (List (V α)) → List (List (V α)) →
    Option (List (List (V α)))
  | 0, _, _, _ => none
  | fuel + 1, shape0, pool, shapes =>
      match shape0 with
      | [] => none
      | s0 :: srest =>
        let shape := s0 :: srest
        let start_info := find_line_closest_to_point s0 pool
        match start_info.closest_line_index with
        | some i =>
            stitch_go fuel ((start_info.far_vertex).getD s0 :: shape) (pool.eraseIdx i) shapes
        | none =>
          let end_info := find_line_closest_to_point (shape.getLastD s0) pool
          match end_info.closest_line_index with
          | some i =>
              stitch_go fuel (shape ++ [(end_info.far_vertex).getD s0]) (pool.eraseIdx i) shapes
          | none =>
            match pool with
            | next :: rest => stitch_go fuel next rest (shapes ++ [shape])
            | [] => some (shapes ++ [shape])

/-- `lines_to_shapes(lines)`. -/
def lines_to_shapes (lines : List (List (V α))) : Option (List (List (V α))) :=
  match lines with
  | [] => some []
  | first :: rest => stitch_go (lines.length + 1) first rest []

end Stitcher

/-! ### The flash interpreter (`create_cutouts` statement replay) -/

/-- An aperture definition recorded by an `AD` parameter statement:
`{"shape": statement.shape, "modifiers": statement.modifiers}`. -/
structure ApertureDef where
  shape : String
  modifiers : List (List ℝ)

/-- The statement stream replayed by `create_cutouts`, as dispatched on by
`statement.type` / `statement.param` / `statement.op`.  `paramOther`
covers `PARAM` statements whose `param` is neither `AD` nor `AM`;
`other` covers every remaining statement type (both fall into branches
that do nothing). -/
inductive Statement where
  | paramAD (d : ℕ) (shape : String) (modifiers : List (List ℝ))
  | paramAM (name : String) (primitives : List Prim)
  | paramOther
  | aperture (d : ℕ)
  | coord (op : String) (x y : Option ℝ)
  | other

/-- The interpreter registers of `create_cutouts`.  The Python dicts are
modelled as association lists updated at the front (`lookup` finds the
most recent binding, matching dict overwrite semantics). -/
structure CutoutState where
  apertures : List (ℕ × ApertureDef)
  aperture_macros : List (String × List (List (V ℝ)))
  current_aperture : Option ℕ
  current_x : ℝ
  current_y : ℝ
  cutout_shapes : List (List (V ℝ))

/-- The initial register state of one `create_cutouts` pass. -/
def initialCutoutState : CutoutState := ⟨[], [], none, 0, 0, []⟩

/-- Python's `if not current_aperture:` — true for `None` and for a falsy
(zero) aperture code. -/
def aperture_not_set : Option ℕ → Bool
  | none => true
  | some d => decide (d = 0)

/-- The sub-shapes of the external library's `Obround` primitive.
Modelled from the spec: `Obround{sub_shapes: {two offset circles/
rectangles forming a capsule}}` — the gerber parser library builds them
from the obround's position, width and height; the library source is not
part of this repository.  No theorem below depends on their layout. -/
noncomputable def obround_subshapes (position : ℝ × ℝ) (width height : ℝ) : List Prim :=
  if decide (width < height) then
    [.circle (position.1, position.2 + (height - width) / 2) width,
     .circle (position.1, position.2 - (height - width) / 2) width,
     .rectangle position width (height - width)]
  else
    [.circle (position.1 - (width - height) / 2, position.2) height,
     .circle (position.1 + (width - height) / 2, position.2) height,
     .rectangle position (width - height) height]

/-- One iteration of the `for statement in solder_paste.statements` loop
of `create_cutouts`.  A raised exception aborts the pass (`Except`). -/
noncomputable def cutout_step (hull : List (V ℝ) → List (V ℝ)) (st : CutoutState) :
    Statement → Except ConvError CutoutState
  | .paramAD d shape modifiers =>
      .ok { st with apertures := (d, ⟨shape, modifiers⟩) :: st.apertures }
  | .paramAM name prims =>
      (prims.mapM (fun p => primitive_to_shape hull p false false)).map
        (fun shapes => { st with aperture_macros := (name, shapes) :: st.aperture_macros })
  | .paramOther => .ok st
  | .aperture d => .ok { st with current_aperture := some d }
  | .coord op x y =>
      if op = "D02" ∨ op = "D2" then
        .ok { st with current_x := x.getD st.current_x, current_y := y.getD st.current_y }
      else if op = "D03" ∨ op = "D3" then
        if aperture_not_set st.current_aperture then .error .noApertureSelected
        else
          match st.current_aperture with
          | none => .error .noApertureSelected
          | some dcode =>
            match st.apertures.lookup dcode with
            | none => .error .keyError
            | some aperture =>
              let cx := x.getD st.current_x
              let cy := y.getD st.current_y
              if aperture.shape = "C" then
                match aperture.modifiers with
                | (diameter :: _) :: _ =>
                    (primitive_to_shape hull
                        (.circle (cx, cy) diameter) false false).map
                      (fun s => { st with current_x := cx, current_y := cy,
                                          cutout_shapes := st.cutout_shapes ++ [s] })
                | _ => .error .keyError
              else if aperture.shape = "R" then
                match aperture.modifiers with
                | (width :: height :: _) :: _ =>
                    (primitive_to_shape hull
                        (.rectangle (cx, cy) width height) false false).map
                      (fun s => { st with current_x := cx, current_y := cy,
                                          cutout_shapes := st.cutout_shapes ++ [s] })
                | _ => .error .keyError
              else if aperture.shape = "O" then
                match aperture.modifiers with
                | (width :: height :: _) :: _ =>
                    (primitive_to_shape hull
                        (.obround (obround_subshapes (0, 0) width height)) false false).map
                      (fun s =>
                        let positioned := s.map (fun p =>
                          (⟨p.x + cx, p.y + cy⟩ : V ℝ))
                        { st with current_x := cx, current_y := cy,
                                  cutout_shapes := st.cutout_shapes ++ [positioned] })
                | _ => .error .keyError
              else
                match st.aperture_macros.lookup aperture.shape with
                | some macro_shapes =>
                    let placed := macro_shapes.map (fun ms => ms.map (fun p =>
                      (⟨p.x + cx, p.y + cy⟩ : V ℝ)))
                    .ok { st with current_x := cx, current_y := cy,
                                  cutout_shapes := st.cutout_shapes ++ placed }
                | none => .error .unsupportedApertureShape
      else .ok st
  | .other => .ok st

/-- The whole statement replay loop: the first raised exception aborts
the pass. -/
noncomputable def cutout_replay (hull : List (V ℝ) → List (V ℝ))
    (statements : List Statement) (st : CutoutState) : Except ConvError CutoutState :=
  statements.foldlM (cutout_step hull) st

/-- The `for p in solder_paste.primitives` loop of `create_cutouts`:
`AMGroup` primitives are skipped (with a printed diagnostic); any other
primitive is converted, and the shape is routed to the cutout shapes when
it has more than 2 vertices, and to the line pool otherwise.  Returns
`(cutout shapes, cutout lines)`. -/
noncomputable def process_solder_primitives (hull : List (V ℝ) → List (V ℝ)) :
    List Prim → Bool → Except ConvError (List (List (V ℝ)) × List (List (V ℝ)))
  | [], _ => .ok ([], [])
  | p :: rest, simplify_regions =>
      match p with
      | .amGroup => process_solder_primitives hull rest simplify_regions
      | _ =>
          (primitive_to_shape hull p false simplify_regions).bind (fun shape =>
            (process_solder_primitives hull rest simplify_regions).map
              (fun res =>
                if shape.length > 2 then (shape :: res.1, res.2)
                else (res.1, shape :: res.2)))

/-! ### The stencil assembler (`process_gerber`)

The external solid-modelling collaborator (solidpython) is modelled as a
syntax tree: the assembler only composes its operations and never
inspects the geometry again. -/

/-- The OpenSCAD object tree built by `process_gerber`. -/
inductive Scad where
  /-- `polygon([...])`. -/
  | polygon (points : List (ℝ × ℝ))
  /-- `union()(*children)`. -/
  | union (children : List Scad)
  /-- `a - b`. -/
  | diff (a b : Scad)
  /-- `a + b`. -/
  | add (a b : Scad)
  /-- `translate((x, y, z))(child)`. -/
  | translate (v : ℝ × ℝ × ℝ) (child : Scad)
  /-- `mirror(normal)(child)`. -/
  | mirror (v : ℝ × ℝ × ℝ) (child : Scad)
  /-- `linear_extrude(height)(child)`. -/
  | linear_extrude (height : ℝ) (child : Scad)
  /-- `rotate(a, v)(child)`. -/
  | rotateBody (a : ℝ) (v : ℝ × ℝ × ℝ) (child : Scad)
  /-- `solid.utils.down(z)(child)`. -/
  | down (z : ℝ) (child : Scad)

/-- `conversion.offset_shape(shape, offset, inside)`: wraps the external
`solid.utils.offset_points` collaborator (passed as `offset_points`) and
re-wraps its output points as vectors. -/
def conv_offset_shape (offset_points : List (V ℝ) → ℝ → Bool → List (V ℝ))
    (shape : List (V ℝ)) (offset : ℝ) (inside : Bool) : List (V ℝ) :=
  (offset_points shape offset inside).map (fun p => ⟨p.x, p.y⟩)

/-- The body-assembly part of `process_gerber` (source lines 511-569),
starting from the outline shape computed from the outline file (or the
synthesized bounding box) and the cutout polygon returned by
`create_cutouts`.  File parsing and `scad_render` serialization are
external.  Returns the final `stencil` object handed to `scad_render`. -/
noncomputable def process_gerber_body
    (offset_points : List (V ℝ) → ℝ → Bool → List (V ℝ))
    (outline_shape0 : List (V ℝ)) (cutout_polygon0 : Scad)
    (stencil_thickness : ℝ) (include_ledge : Bool) (ledge_thickness gap : ℝ)
    (include_frame : Bool) (frame_width frame_height frame_thickness : ℝ)
    (flip_stencil : Bool) : Scad :=
  -- `if gap:` — truthy for any non-zero gap
  let outline_shape :=
    if gap ≠ 0 then conv_offset_shape offset_points outline_shape0 gap false
    else outline_shape0
  let outline_polygon0 := Scad.polygon (outline_shape.map V.as_tuple)
  let outline_bounds := bounding_box outline_shape 0 0 0
  -- outline_offset = bounds[0] + (bounds[2] - bounds[0]) / 2
  let outline_offset := outline_bounds.c0.add ((outline_bounds.c2.sub outline_bounds.c0).sdiv 2)
  let outline_polygon1 := Scad.translate (-outline_offset.x, -outline_offset.y, 0) outline_polygon0
  let cutout_polygon1 := Scad.translate (-outline_offset.x, -outline_offset.y, 0) cutout_polygon0
  let outline_polygon :=
    if flip_stencil then Scad.mirror (-1, 0, 0) outline_polygon1 else outline_polygon1
  let cutout_polygon :=
    if flip_stencil then Scad.mirror (-1, 0, 0) cutout_polygon1 else cutout_polygon1
  let stencil0 := Scad.linear_extrude stencil_thickness (Scad.diff outline_polygon cutout_polygon)
  let stencil1 :=
    if include_ledge then
      let ledge_shape := conv_offset_shape offset_points outline_shape 1.2 false
      let ledge_polygon0 :=
        Scad.diff
          (Scad.translate (-outline_offset.x, -outline_offset.y, 0)
            (Scad.polygon (ledge_shape.map V.as_tuple)))
          outline_polygon
      -- Cut the ledge in half: bounding box of the ledge shape, with two
      -- corners moved towards the middle of the shorter axis.
      let cutter := bounding_box ledge_shape 0 0 0
      let height := |cutter.c1.y - cutter.c0.y|
      let width := |cutter.c0.x - cutter.c3.x|
      let cutter2 :=
        if width > height then
          (⟨cutter.c0, ⟨cutter.c1.x, cutter.c1.y - height / 2⟩,
            ⟨cutter.c2.x, cutter.c2.y - height / 2⟩, cutter.c3⟩ : Rect4)
        else
          (⟨cutter.c0, cutter.c1, ⟨cutter.c2.x - width / 2, cutter.c2.y⟩,
            ⟨cutter.c3.x - width / 2, cutter.c3.y⟩⟩ : Rect4)
      let ledge_polygon :=
        Scad.diff ledge_polygon0
          (Scad.translate (-outline_offset.x, -outline_offset.y, 0)
            (Scad.polygon (cutter2.toList.map V.as_tuple)))
      let ledge :=
        Scad.down (ledge_thickness - stencil_thickness)
          (Scad.linear_extrude ledge_thickness ledge_polygon)
      Scad.add ledge stencil0
    else if include_frame then
      let frame_shape := (bounding_box outline_shape frame_width frame_height 0).toList
      let frame_polygon :=
        Scad.diff
          (Scad.translate (-outline_offset.x, -outline_offset.y, 0)
            (Scad.polygon (frame_shape.map V.as_tuple)))
          outline_polygon
      let frame :=
        Scad.down (frame_thickness - stencil_thickness)
          (Scad.linear_extrude frame_thickness frame_polygon)
      Scad.add frame stencil0
    else stencil0
  Scad.rotateBody 180 (1, 0, 0) stencil1

/-! ### Helper lemmas -/

/-- Rounding to `n` decimal places is idempotent. -/
theorem roundTo_idem (x : ℝ) (n : ℕ) : roundTo (roundTo x n) n = roundTo x n := by
  unfold roundTo
  have h : ((10 : ℝ) ^ n) ≠ 0 := by positivity
  rw [div_mul_cancel₀ _ h]
  rw [round_intCast]

/-- A vertex is fixed by 3-decimal rounding (the property claimed by the
spec for every produced vertex). -/
def vertex_rounded (v : V ℝ) : Prop :=
  v.x = roundTo v.x 3 ∧ v.y = roundTo v.y 3

/-- `make_v` output is always rounding-fixed. -/
theorem make_v_rounded (p : ℝ × ℝ) : vertex_rounded (make_v p) :=
  ⟨(roundTo_idem p.1 3).symm, (roundTo_idem p.2 3).symm⟩

/-- `round` is monotone. -/
theorem round_monotone {a b : ℝ} (h : a ≤ b) : round a ≤ round b := by
  rw [round_eq, round_eq]
  exact Int.floor_mono (by linarith)

/-- Unfolding of the `Circle` branch of `primitive_to_shape`. -/
theorem primitive_to_shape_circle (hull : List (V ℝ) → List (V ℝ))
    (position : ℝ × ℝ) (diameter : ℝ) (in_region simplify_regions : Bool) :
    primitive_to_shape hull (.circle position diameter) in_region simplify_regions =
      .ok ((List.range ((max 1 (round (Real.pi * diameter / MAX_SEGMENT_LENGTH))).toNat)).map
        (fun s : ℕ =>
          make_v (position.1 + Real.cos ((s : ℝ) *
              (2 * Real.pi / (((max 1 (round (Real.pi * diameter / MAX_SEGMENT_LENGTH))).toNat : ℕ) : ℝ))) * diameter / 2,
            position.2 + Real.sin ((s : ℝ) *
              (2 * Real.pi / (((max 1 (round (Real.pi * diameter / MAX_SEGMENT_LENGTH))).toNat : ℕ) : ℝ))) * diameter / 2))) := by
  rw [primitive_to_shape]

/-! ### C8: circle rasterization vertex count -/

/-- **C8.** For every Circle primitive of diameter `d ≥ 0`, the converter
returns exactly `max(1, round(π·d/0.1))` vertices; in particular the
result is never empty, and the vertex count is monotonically
non-decreasing in the diameter. -/
theorem circle_vertex_count (hull : List (V ℝ) → List (V ℝ)) (position : ℝ × ℝ)
    (d₁ d₂ : ℝ) (ir₁ sr₁ ir₂ sr₂ : Bool) (s₁ s₂ : List (V ℝ))
    (hd : 0 ≤ d₁) (hle : d₁ ≤ d₂)
    (h₁ : primitive_to_shape hull (.circle position d₁) ir₁ sr₁ = .ok s₁)
    (h₂ : primitive_to_shape hull (.circle position d₂) ir₂ sr₂ = .ok s₂) :
    s₁.length = (max 1 (round (Real.pi * d₁ / (0.1 : ℝ)))).toNat ∧
      1 ≤ s₁.length ∧ s₁.length ≤ s₂.length := by
  rw [primitive_to_shape_circle] at h₁ h₂
  have e₁ := Except.ok.inj h₁
  have e₂ := Except.ok.inj h₂
  subst e₁; subst e₂
  simp only [List.length_map, List.length_range]
  have h01 : (0 : ℝ) < MAX_SEGMENT_LENGTH := by
    simp [MAX_SEGMENT_LENGTH]; norm_num
  refine ⟨rfl, ?_, ?_⟩
  · have h1 : (1 : ℤ) ≤ max 1 (round (Real.pi * d₁ / MAX_SEGMENT_LENGTH)) := le_max_left _ _
    omega
  · have harg : Real.pi * d₁ / MAX_SEGMENT_LENGTH ≤ Real.pi * d₂ / MAX_SEGMENT_LENGTH := by
      apply (div_le_div_iff_of_pos_right h01).mpr
      exact mul_le_mul_of_nonneg_left hle Real.pi_pos.le
    exact Int.toNat_le_toNat (max_le_max le_rfl (round_monotone harg))

/-- Closed witness for C8 at diameter `0`: the converter yields the single
vertex `(0, 0)` (the `max 1 _` guard fires). -/
theorem circle_vertex_count_witness :
    (0 : ℝ) ≤ 0 ∧
      ([(⟨0, 0⟩ : V ℝ)].length = (max 1 (round (Real.pi * 0 / (0.1 : ℝ)))).toNat ∧
        1 ≤ [(⟨0, 0⟩ : V ℝ)].length ∧ [(⟨0, 0⟩ : V ℝ)].length ≤ [(⟨0, 0⟩ : V ℝ)].length) := by
  have hok : primitive_to_shape (fun l => l) (.circle (0, 0) 0) false false =
      .ok [(⟨0, 0⟩ : V ℝ)] := by
    rw [primitive_to_shape_circle]
    norm_num [make_v, roundTo]
  exact ⟨le_refl 0,
    circle_vertex_count (fun l => l) (0, 0) 0 0 false false false false _ _
      (le_refl 0) (le_refl 0) hok hok⟩

/-! ### C3: CenterLine rasterization -/

/-- Rotation of a point by `theta` degrees about the origin (the formula
documented in the source comment: `(x·cosθ - y·sinθ, x·sinθ + y·cosθ)`). -/
noncomputable def rotate_deg_about_origin (theta : ℝ) (p : ℝ × ℝ) : V ℝ :=
  ⟨p.1 * Real.cos (theta * Real.pi / 180) - p.2 * Real.sin (theta * Real.pi / 180),
   p.1 * Real.sin (theta * Real.pi / 180) + p.2 * Real.cos (theta * Real.pi / 180)⟩

/-- Centroid of a list of vertices. -/
noncomputable def centroid (l : List (V ℝ)) : V ℝ :=
  ⟨(l.map V.x).sum / l.length, (l.map V.y).sum / l.length⟩

/-- Evaluation of the `CenterLine` branch at center `(1,0)`, width and
height `2`, rotation `180°`: the code rotates the corners of the
rectangle centered at `(1,0)` about the *origin*, yielding corners around
`(-1, 0)`. -/
theorem center_line_eval_180 :
    primitive_to_shape (fun l => l) (.centerLine (1, 0) 2 2 180) false false =
      .ok [⟨0, 1⟩, ⟨-2, 1⟩, ⟨-2, -1⟩, ⟨0, -1⟩] := by
  rw [primitive_to_shape]
  have h180 : (180 : ℝ) * Real.pi / 180 = Real.pi := by ring
  rw [h180, Real.cos_pi, Real.sin_pi]
  norm_num

/-- **C3 (counterexample).** For the CenterLine with center `(1,0)`,
width = height = 2 and rotation 180°, the centroid of the returned
vertices is `(-1, 0)`, not the center `(1, 0)`: the code does not
translate the rotated rectangle back to `center`. -/
theorem center_line_centroid_counterexample :
    primitive_to_shape (fun l => l) (.centerLine (1, 0) 2 2 180) false false =
        .ok [⟨0, 1⟩, ⟨-2, 1⟩, ⟨-2, -1⟩, ⟨0, -1⟩] ∧
      centroid [⟨0, 1⟩, ⟨-2, 1⟩, ⟨-2, -1⟩, ⟨0, -1⟩] = ⟨-1, 0⟩ ∧
      ¬ centroid [⟨0, 1⟩, ⟨-2, 1⟩, ⟨-2, -1⟩, ⟨0, -1⟩] = (⟨1, 0⟩ : V ℝ) := by
  refine ⟨center_line_eval_180, ?_, ?_⟩
  · simp [centroid]
    norm_num
  · simp [centroid]
    norm_num

/-- **C3 (amended).** For every CenterLine primitive the converter
returns the four corners of the axis-aligned `w × h` rectangle centered
at `c`, each rotated by `theta` about the **origin** and *not* translated
afterwards; consequently the centroid of the four returned vertices is
`c` rotated by `theta` about the origin (which equals `c` only when the
rotation fixes `c`). -/
theorem center_line_rotated_about_origin (hull : List (V ℝ) → List (V ℝ))
    (c : ℝ × ℝ) (w h rot : ℝ) (ir sr : Bool) (s : List (V ℝ))
    (hok : primitive_to_shape hull (.centerLine c w h rot) ir sr = .ok s) :
    s = [rotate_deg_about_origin rot (c.1 - w / 2, c.2 - h / 2),
         rotate_deg_about_origin rot (c.1 + w / 2, c.2 - h / 2),
         rotate_deg_about_origin rot (c.1 + w / 2, c.2 + h / 2),
         rotate_deg_about_origin rot (c.1 - w / 2, c.2 + h / 2)] ∧
      centroid s = rotate_deg_about_origin rot c := by
  rw [primitive_to_shape] at hok
  have e := Except.ok.inj hok
  subst e
  refine ⟨rfl, ?_⟩
  simp only [centroid, rotate_deg_about_origin, List.map_cons, List.map_nil,
    List.sum_cons, List.sum_nil, List.length_cons, List.length_nil]
  norm_num
  constructor <;> ring

/-- Closed witness for C3 (amended) at center `(1,0)`, width = height =
2, rotation 180°. -/
theorem center_line_rotated_about_origin_witness :
    ([(⟨0, 1⟩ : V ℝ), ⟨-2, 1⟩, ⟨-2, -1⟩, ⟨0, -1⟩] =
        [rotate_deg_about_origin 180 ((1 : ℝ) - 2 / 2, (0 : ℝ) - 2 / 2),
         rotate_deg_about_origin 180 ((1 : ℝ) + 2 / 2, (0 : ℝ) - 2 / 2),
         rotate_deg_about_origin 180 ((1 : ℝ) + 2 / 2, (0 : ℝ) + 2 / 2),
         rotate_deg_about_origin 180 ((1 : ℝ) - 2 / 2, (0 : ℝ) + 2 / 2)]) ∧
      centroid [⟨0, 1⟩, ⟨-2, 1⟩, ⟨-2, -1⟩, ⟨0, -1⟩] = rotate_deg_about_origin 180 (1, 0) := by
  have h := center_line_rotated_about_origin (fun l => l) (1, 0) 2 2 180 false false
    [⟨0, 1⟩, ⟨-2, 1⟩, ⟨-2, -1⟩, ⟨0, -1⟩] center_line_eval_180
  exact h

/-! ### C1: vertex rounding at creation time -/

/-- **C1 (counterexample).** The CenterLine branch never calls `make_v`:
for a degenerate CenterLine centered at `(1/2500, 0)` (i.e. `0.0004`)
with zero size and zero rotation, every returned vertex has x-coordinate
`0.0004`, which is not fixed by rounding to 3 decimal places. -/
theorem vertex_rounding_counterexample :
    primitive_to_shape (fun l => l) (.centerLine (1 / 2500, 0) 0 0 0) false false =
        .ok [⟨1 / 2500, 0⟩, ⟨1 / 2500, 0⟩, ⟨1 / 2500, 0⟩, ⟨1 / 2500, 0⟩] ∧
      ¬ ∀ v ∈ [(⟨1 / 2500, 0⟩ : V ℝ), ⟨1 / 2500, 0⟩, ⟨1 / 2500, 0⟩, ⟨1 / 2500, 0⟩],
          vertex_rounded v := by
  constructor
  · rw [primitive_to_shape]
    norm_num
  · intro hall
    have h := (hall ⟨1 / 2500, 0⟩ (by simp)).1
    rw [roundTo] at h
    have hr : round ((1 / 2500 : ℝ) * 10 ^ 3) = 0 := by
      rw [round_eq_zero_iff]
      constructor <;> norm_num
    rw [hr] at h
    norm_num at h

/-- Every vertex of an `arc_loop` result comes from `make_v`. -/
theorem arc_loop_rounded (cx cy radius angle_delta : ℝ) (ccw : Bool) :
    ∀ (n : ℕ) (angle : ℝ) (v : V ℝ),
      v ∈ arc_loop cx cy radius angle_delta ccw angle n → vertex_rounded v := by
  intro n
  induction n with
  | zero => intro angle v hv; rw [arc_loop] at hv; simp at hv
  | succ k ih =>
      intro angle v hv
      rw [arc_loop] at hv
      rcases List.mem_cons.mp hv with h | h
      · subst h; exact make_v_rounded _
      · exact ih _ v h

/-- Membership inversion for the `Obround` accumulation loop: every
accumulated vertex comes from the shape of one of the sub-primitives. -/
theorem obround_vertices_mem (hull : List (V ℝ) → List (V ℝ)) :
    ∀ (subs : List Prim) (vs : List (V ℝ)),
      obround_vertices hull subs = .ok vs → ∀ v ∈ vs,
        ∃ q ∈ subs, ∃ sq, primitive_to_shape hull q false false = .ok sq ∧ v ∈ sq := by
  intro subs
  induction subs with
  | nil =>
      intro vs hvs v hv
      rw [obround_vertices] at hvs
      cases Except.ok.inj hvs
      simp at hv
  | cons p rest ih =>
      intro vs hvs v hv
      rw [obround_vertices] at hvs
      cases hp : primitive_to_shape hull p false false with
      | error e => rw [hp] at hvs; simp [Except.bind] at hvs
      | ok sp =>
          rw [hp] at hvs
          cases hr : obround_vertices hull rest with
          | error e => rw [hr] at hvs; simp [Except.bind, Except.map] at hvs
          | ok vr =>
              rw [hr] at hvs
              simp only [Except.bind, Except.map] at hvs
              cases Except.ok.inj hvs
              rcases List.mem_append.mp hv with h | h
              · exact ⟨p, List.mem_cons_self _ _, sp, hp, h⟩
              · rcases ih vr hr v h with ⟨q, hq, sq, hsq, hvsq⟩
                exact ⟨q, List.mem_cons_of_mem _ hq, sq, hsq, hvsq⟩

/-- Circle shapes are built from `make_v` only. -/
theorem circle_shape_rounded (hull : List (V ℝ) → List (V ℝ)) (position : ℝ × ℝ)
    (diameter : ℝ) (ir sr : Bool) (s : List (V ℝ))
    (hok : primitive_to_shape hull (.circle position diameter) ir sr = .ok s) :
    ∀ v ∈ s, vertex_rounded v := by
  rw [primitive_to_shape_circle] at hok
  cases Except.ok.inj hok
  intro v hv
  rcases List.mem_map.mp hv with ⟨a, _, rfl⟩
  exact make_v_rounded _

/-- Rectangle shapes are built from `make_v` only. -/
theorem rectangle_shape_rounded (hull : List (V ℝ) → List (V ℝ)) (position : ℝ × ℝ)
    (w h : ℝ) (ir sr : Bool) (s : List (V ℝ))
    (hok : primitive_to_shape hull (.rectangle position w h) ir sr = .ok s) :
    ∀ v ∈ s, vertex_rounded v := by
  rw [primitive_to_shape] at hok
  cases Except.ok.inj hok
  intro v hv
  simp only [List.mem_cons, List.not_mem_nil, or_false] at hv
  rcases hv with rfl | rfl | rfl | rfl <;> exact make_v_rounded _

/-- **C1 (amended).** Vertices are rounded to 3 decimal places at
creation exactly in the branches of `primitive_to_shape` that construct
them through `make_v`: Circles, Rectangles, Arcs, macro Outlines, lines
inside regions, lines whose aperture is not wide, and Obround hulls
(provided the external hull returns a subset of its input points, whose
members here are circle/rectangle sub-shapes).  The claim's inclusion of
thickened Lines, CenterLines and VectorLines is refuted by the
counterexample: those branches bypass `make_v`. -/
theorem make_v_branch_vertices_rounded (hull : List (V ℝ) → List (V ℝ)) :
    (∀ position diameter ir sr s,
        primitive_to_shape hull (.circle position diameter) ir sr = .ok s →
        ∀ v ∈ s, vertex_rounded v) ∧
    (∀ position w h ir sr s,
        primitive_to_shape hull (.rectangle position w h) ir sr = .ok s →
        ∀ v ∈ s, vertex_rounded v) ∧
    (∀ c radius a b ccw ir sr s,
        primitive_to_shape hull (.arc c radius a b ccw) ir sr = .ok s →
        ∀ v ∈ s, vertex_rounded v) ∧
    (∀ points ir sr s,
        primitive_to_shape hull (.amOutline points) ir sr = .ok s →
        ∀ v ∈ s, vertex_rounded v) ∧
    (∀ p q ap sr s,
        primitive_to_shape hull (.line p q ap) true sr = .ok s →
        ∀ v ∈ s, vertex_rounded v) ∧
    (∀ p q ap ir sr s,
        has_wide_aperture ap (some (Real.sqrt ((p.1 - q.1) ^ 2 + (p.2 - q.2) ^ 2))) = false →
        primitive_to_shape hull (.line p q ap) ir sr = .ok s →
        ∀ v ∈ s, vertex_rounded v) ∧
    ((∀ pts v, v ∈ hull pts → v ∈ pts) →
      ∀ subs ir sr s,
        (∀ q ∈ subs, (∃ pos dia, q = Prim.circle pos dia) ∨
          (∃ pos w h, q = Prim.rectangle pos w h)) →
        primitive_to_shape hull (.obround subs) ir sr = .ok s →
        ∀ v ∈ s, vertex_rounded v) := by
  refine ⟨circle_shape_rounded hull, rectangle_shape_rounded hull, ?_, ?_, ?_, ?_, ?_⟩
  · -- Arc
    intro c radius a b ccw ir sr s hok
    rw [primitive_to_shape] at hok
    cases Except.ok.inj hok
    intro v hv
    exact arc_loop_rounded _ _ _ _ _ _ _ v hv
  · -- AMOutline
    intro points ir sr s hok
    rw [primitive_to_shape] at hok
    cases Except.ok.inj hok
    intro v hv
    rcases List.mem_map.mp hv with ⟨a, _, rfl⟩
    exact make_v_rounded _
  · -- Line inside a region
    intro p q ap sr s hok
    rw [primitive_to_shape] at hok
    simp only [Bool.not_true, Bool.false_and, Bool.false_eq_true, if_false] at hok
    cases Except.ok.inj hok
    intro v hv
    simp only [List.mem_cons, List.not_mem_nil, or_false] at hv
    rcases hv with rfl | rfl <;> exact make_v_rounded _
  · -- Line with a non-wide aperture
    intro p q ap ir sr s hw hok
    rw [primitive_to_shape] at hok
    rw [hw, Bool.and_false] at hok
    simp only [Bool.false_eq_true, if_false] at hok
    cases Except.ok.inj hok
    intro v hv
    simp only [List.mem_cons, List.not_mem_nil, or_false] at hv
    rcases hv with rfl | rfl <;> exact make_v_rounded _
  · -- Obround hulls
    intro hsub subs ir sr s hkinds hok
    rw [primitive_to_shape] at hok
    cases ho : obround_vertices hull subs with
    | error e => rw [ho] at hok; simp [Except.map] at hok
    | ok vs =>
        rw [ho] at hok
        simp only [Except.map] at hok
        cases Except.ok.inj hok
        intro v hv
        have hv2 : v ∈ vs := hsub vs v hv
        rcases obround_vertices_mem hull subs vs ho v hv2 with ⟨q, hq, sq, hsq, hvsq⟩
        rcases hkinds q hq with ⟨pos, dia, rfl⟩ | ⟨pos, w, h, rfl⟩
        · exact circle_shape_rounded hull pos dia false false sq hsq v hvsq
        · exact rectangle_shape_rounded hull pos w h false false sq hsq v hvsq

/-- Closed witness for C1 (amended): the circle conjunct applied to a
degenerate circle. -/
theorem make_v_branch_vertices_rounded_witness :
    primitive_to_shape (fun l => l) (.circle (0, 0) 0) false false = .ok [(⟨0, 0⟩ : V ℝ)] ∧
      ∀ v ∈ [(⟨0, 0⟩ : V ℝ)], vertex_rounded v := by
  have hok : primitive_to_shape (fun l => l) (.circle (0, 0) 0) false false =
      .ok [(⟨0, 0⟩ : V ℝ)] := by
    rw [primitive_to_shape_circle]
    norm_num [make_v, roundTo]
  exact ⟨hok, (make_v_branch_vertices_rounded (fun l => l)).1 (0, 0) 0 false false _ hok⟩

/-! ### C7: the Line thin-stroke / thickened-rectangle decision -/

/-- The spec's description of the thickened rectangle: offset each
endpoint by `r·√2` at ±135°/±45° from the segment's (normalized, or
zero) direction vector. -/
noncomputable def spec_thickened_rect (p q : ℝ × ℝ) (r : ℝ) : List (V ℝ) :=
  let start_v := V.from_tuple p
  let end_v := V.from_tuple q
  let d := end_v.sub start_v
  let u := if d.absV ≠ 0 then d.sdiv d.absV else (⟨0, 0⟩ : V ℝ)
  let w := u.smul (Real.sqrt 2 * r)
  [start_v.add (w.rotate 135 true),
   start_v.add (w.rotate (-135) true),
   end_v.add (w.rotate (-45) true),
   end_v.add (w.rotate 45 true)]

/-- `rect_from_line` implements the spec's thickened rectangle with
`r = aperture size / 2`. -/
theorem rect_from_line_eq_spec (p q : ℝ × ℝ) (ap : Aperture) :
    rect_from_line p q ap = spec_thickened_rect p q (get_aperture_size ap / 2) := rfl

/-- **C7.** For every Line primitive: if `in_region`, or the effective
aperture size is zero, or the segment has positive length `L` and the
size does not exceed `L/10`, the converter returns the two rounded
endpoints; otherwise it returns the 4-corner thickened rectangle with
half-width `size/2`. -/
theorem line_branch_selection (hull : List (V ℝ) → List (V ℝ)) (p q : ℝ × ℝ)
    (ap : Aperture) (ir sr : Bool) (s : List (V ℝ))
    (hok : primitive_to_shape hull (.line p q ap) ir sr = .ok s) :
    ((ir = true ∨ get_aperture_size ap = 0 ∨
        (0 < Real.sqrt ((p.1 - q.1) ^ 2 + (p.2 - q.2) ^ 2) ∧
          get_aperture_size ap ≤ Real.sqrt ((p.1 - q.1) ^ 2 + (p.2 - q.2) ^ 2) / 10)) →
      s = [make_v p, make_v q]) ∧
    ((ir = false ∧ get_aperture_size ap ≠ 0 ∧
        (Real.sqrt ((p.1 - q.1) ^ 2 + (p.2 - q.2) ^ 2) = 0 ∨
          get_aperture_size ap > Real.sqrt ((p.1 - q.1) ^ 2 + (p.2 - q.2) ^ 2) / 10)) →
      s = spec_thickened_rect p q (get_aperture_size ap / 2)) := by
  rw [primitive_to_shape] at hok
  constructor
  · rintro (rfl | hsz | ⟨hpos, hle⟩)
    · simp only [Bool.not_true, Bool.false_and, Bool.false_eq_true, if_false] at hok
      exact (Except.ok.inj hok).symm
    · have hw : has_wide_aperture ap
          (some (Real.sqrt ((p.1 - q.1) ^ 2 + (p.2 - q.2) ^ 2))) = false := by
        simp [has_wide_aperture, hsz]
      rw [hw, Bool.and_false] at hok
      simp only [Bool.false_eq_true, if_false] at hok
      exact (Except.ok.inj hok).symm
    · have hw : has_wide_aperture ap
          (some (Real.sqrt ((p.1 - q.1) ^ 2 + (p.2 - q.2) ^ 2))) = false := by
        unfold has_wide_aperture
        by_cases hsz0 : get_aperture_size ap = 0
        · simp [hsz0]
        · simp [hsz0, hpos.ne', not_lt.mpr hle]
      rw [hw, Bool.and_false] at hok
      simp only [Bool.false_eq_true, if_false] at hok
      exact (Except.ok.inj hok).symm
  · rintro ⟨rfl, hsz, hcase⟩
    have hw : has_wide_aperture ap
        (some (Real.sqrt ((p.1 - q.1) ^ 2 + (p.2 - q.2) ^ 2))) = true := by
      unfold has_wide_aperture
      rcases hcase with hzero | hgt
      · simp [hsz, hzero]
      · by_cases hL : Real.sqrt ((p.1 - q.1) ^ 2 + (p.2 - q.2) ^ 2) = 0
        · simp [hsz, hL]
        · simp [hsz, hL, hgt]
    rw [hw] at hok
    simp only [Bool.not_false, Bool.true_and, if_true] at hok
    rw [← rect_from_line_eq_spec]
    exact (Except.ok.inj hok).symm

/-- Closed witness for C7: a zero-size aperture line is emitted as its
two endpoints. -/
theorem line_branch_selection_witness :
    primitive_to_shape (fun l => l) (.line (0, 0) (1, 0) ⟨0, 0, 0⟩) false false =
        .ok [⟨0, 0⟩, ⟨1, 0⟩] ∧
      (false = true ∨ get_aperture_size ⟨0, 0, 0⟩ = 0 ∨
        (0 < Real.sqrt (((0 : ℝ) - 1) ^ 2 + ((0 : ℝ) - 0) ^ 2) ∧
          get_aperture_size ⟨0, 0, 0⟩ ≤ Real.sqrt (((0 : ℝ) - 1) ^ 2 + ((0 : ℝ) - 0) ^ 2) / 10)) ∧
      [(⟨0, 0⟩ : V ℝ), ⟨1, 0⟩] = [make_v (0, 0), make_v (1, 0)] := by
  have hsz : get_aperture_size ⟨0, 0, 0⟩ = 0 := by
    simp [get_aperture_size]
  have hmk : ([(⟨0, 0⟩ : V ℝ), ⟨1, 0⟩] : List (V ℝ)) = [make_v (0, 0), make_v (1, 0)] := by
    simp [make_v, roundTo]
    norm_num [round_eq]
  have hok : primitive_to_shape (fun l => l) (.line (0, 0) (1, 0) ⟨0, 0, 0⟩) false false =
      .ok [⟨0, 0⟩, ⟨1, 0⟩] := by
    rw [primitive_to_shape]
    have hw : has_wide_aperture ⟨0, 0, 0⟩
        (some (Real.sqrt (((0 : ℝ) - 1) ^ 2 + ((0 : ℝ) - 0) ^ 2))) = false := by
      simp [has_wide_aperture, hsz]
    rw [hw, Bool.and_false]
    simp only [Bool.false_eq_true, if_false]
    rw [← hmk]
  have h := (line_branch_selection (fun l => l) (0, 0) (1, 0) ⟨0, 0, 0⟩ false false
    [⟨0, 0⟩, ⟨1, 0⟩] hok).1 (Or.inr (Or.inl hsz))
  exact ⟨hok, Or.inr (Or.inl hsz), h⟩

/-! ### C6: full-circle arcs under direction reversal -/

/-- `arc_loop` emits exactly `n` vertices. -/
theorem arc_loop_length (cx cy radius angle_delta : ℝ) (ccw : Bool) :
    ∀ (n : ℕ) (angle : ℝ), (arc_loop cx cy radius angle_delta ccw angle n).length = n := by
  intro n
  induction n with
  | zero => intro angle; rw [arc_loop]; rfl
  | succ k ih => intro angle; rw [arc_loop]; simp [ih]

/-- The first vertex of a non-empty `arc_loop` is the start-angle vertex. -/
theorem arc_loop_head (cx cy radius angle_delta : ℝ) (ccw : Bool) (k : ℕ) (angle : ℝ) :
    (arc_loop cx cy radius angle_delta ccw angle (k + 1)).head? =
      some (make_v (cx + Real.cos angle * radius, cy + Real.sin angle * radius)) := by
  rw [arc_loop]
  rfl

/-- Unfolding of the `Arc` branch for a full circle (equal start and end
angles): the sweep is `360 - (a - a)` for both directions. -/
theorem primitive_to_shape_arc_full (hull : List (V ℝ) → List (V ℝ)) (c : ℝ × ℝ)
    (radius a : ℝ) (ccw : Bool) (ir sr : Bool) :
    primitive_to_shape hull (.arc c radius a a ccw) ir sr =
      .ok (arc_loop c.1 c.2 radius
            ((360 - (a - a)) /
              (((max 1 (round (radius * (360 - (a - a)) / MAX_SEGMENT_LENGTH))).toNat : ℕ) : ℝ))
            ccw a
            (max 1 (round (radius * (360 - (a - a)) / MAX_SEGMENT_LENGTH))).toNat) := by
  rw [primitive_to_shape]
  cases ccw <;> simp [le_refl]

/-- `cos 180 < 0` (`180` here is the raw number the code feeds to
`cos`, i.e. 180 radians: `180 - 56π` lies in the third quadrant). -/
theorem cos_180_neg : Real.cos (180 : ℝ) < 0 := by
  have key : Real.cos ((180 : ℝ) - (28 : ℤ) * (2 * Real.pi)) = Real.cos 180 :=
    Real.cos_sub_int_mul_two_pi 180 28
  rw [← key]
  apply Real.cos_neg_of_pi_div_two_lt_of_lt
  · have := Real.pi_lt_d6
    push_cast
    nlinarith
  · have := Real.pi_gt_d6
    push_cast
    nlinarith

/-- `round (5/9) = 1`. -/
theorem round_five_ninths : round ((5 : ℝ) / 9) = 1 := by
  rw [round_eq]
  rw [show (5 : ℝ) / 9 + 1 / 2 = 19 / 18 by norm_num]
  rw [Int.floor_eq_iff]
  constructor <;> norm_num

/-- Evaluation of a counter-clockwise full-circle arc of radius `1/1800`
starting at angle 0: two segments, stepping the angle by `+180`. -/
theorem arc_eval_ccw :
    primitive_to_shape (fun l => l) (.arc (0, 0) (1 / 1800) 0 0 true) false false =
      .ok [⟨1 / 1000, 0⟩, make_v (Real.cos 180 * (1 / 1800), Real.sin 180 * (1 / 1800))] := by
  rw [primitive_to_shape_arc_full]
  have h2 : ((1 / 1800 : ℝ) * (360 - ((0 : ℝ) - 0)) / MAX_SEGMENT_LENGTH) = 2 := by
    rw [MAX_SEGMENT_LENGTH]
    norm_num
  rw [h2]
  have h3 : (max 1 (round (2 : ℝ))).toNat = 2 := by
    rw [show round (2 : ℝ) = 2 from by norm_num]
    rfl
  rw [h3]
  have h4 : ((360 : ℝ) - ((0 : ℝ) - 0)) / (((2 : ℕ) : ℕ) : ℝ) = 180 := by norm_num
  rw [h4]
  norm_num [arc_loop, make_v, roundTo, round_five_ninths]

/-- Evaluation of the same full-circle arc clockwise: the angle steps by
`-180` instead. -/
theorem arc_eval_cw :
    primitive_to_shape (fun l => l) (.arc (0, 0) (1 / 1800) 0 0 false) false false =
      .ok [⟨1 / 1000, 0⟩, make_v (Real.cos (-180) * (1 / 1800), Real.sin (-180) * (1 / 1800))] := by
  rw [primitive_to_shape_arc_full]
  have h2 : ((1 / 1800 : ℝ) * (360 - ((0 : ℝ) - 0)) / MAX_SEGMENT_LENGTH) = 2 := by
    rw [MAX_SEGMENT_LENGTH]
    norm_num
  rw [h2]
  have h3 : (max 1 (round (2 : ℝ))).toNat = 2 := by
    rw [show round (2 : ℝ) = 2 from by norm_num]
    rfl
  rw [h3]
  have h4 : ((360 : ℝ) - ((0 : ℝ) - 0)) / (((2 : ℕ) : ℕ) : ℝ) = 180 := by norm_num
  rw [h4]
  norm_num [arc_loop, make_v, roundTo, round_five_ninths]

/-- **C6 (counterexample).** For the full-circle arc of radius `1/1800`
centered at the origin with start = end angle 0, the clockwise conversion
is *not* the reverse of the counter-clockwise conversion: both lists
start at the start-angle vertex `(0.001, 0)`, but the reversed
counter-clockwise list starts at the angle-`180` vertex, whose rounded
x-coordinate is non-positive (`cos 180 < 0`). -/
theorem arc_reversal_counterexample :
    primitive_to_shape (fun l => l) (.arc (0, 0) (1 / 1800) 0 0 false) false false ≠
      Except.map List.reverse
        (primitive_to_shape (fun l => l) (.arc (0, 0) (1 / 1800) 0 0 true) false false) := by
  rw [arc_eval_ccw, arc_eval_cw]
  simp only [Except.map, List.reverse_cons, List.reverse_nil, List.nil_append,
    List.singleton_append]
  intro h
  have hlist := Except.ok.inj h
  have hhead : (⟨1 / 1000, 0⟩ : V ℝ) =
      make_v (Real.cos 180 * (1 / 1800), Real.sin 180 * (1 / 1800)) :=
    (List.cons.injEq _ _ _ _).mp hlist |>.1
  have hx : (1 / 1000 : ℝ) = roundTo (Real.cos 180 * (1 / 1800)) 3 :=
    congrArg V.x hhead
  rw [roundTo] at hx
  have harg : Real.cos 180 * (1 / 1800) * 10 ^ 3 = Real.cos 180 * (5 / 9) := by ring
  rw [harg] at hx
  have hcast : ((round (Real.cos 180 * (5 / 9)) : ℤ) : ℝ) = 1 := by
    have h1000 : (10 : ℝ) ^ 3 = 1000 := by norm_num
    rw [h1000] at hx
    linarith [hx]
  have hone : round (Real.cos 180 * (5 / 9)) = 1 := by exact_mod_cast hcast
  have hlt : Real.cos 180 * (5 / 9) + 1 / 2 < 1 := by nlinarith [cos_180_neg]
  have hfloor : round (Real.cos 180 * (5 / 9)) < 1 := by
    rw [round_eq]
    exact Int.floor_lt.mpr (by push_cast; linarith)
  omega

/-- **C6 (amended).** For every full-circle arc (equal start and end
angles), the clockwise and counter-clockwise conversions produce vertex
lists of the same (positive) length that begin with the same vertex (the
start-angle vertex); the reversed-list relation claimed by the spec fails
(see the counterexample): the `k`-th clockwise vertex sits at angle
`start - k·delta`, not at the mirrored position reversal would require. -/
theorem arc_full_circle_length_head (hull : List (V ℝ) → List (V ℝ)) (c : ℝ × ℝ)
    (radius a : ℝ) (ir₁ sr₁ ir₂ sr₂ : Bool) (s_cc s_cw : List (V ℝ))
    (hcc : primitive_to_shape hull (.arc c radius a a true) ir₁ sr₁ = .ok s_cc)
    (hcw : primitive_to_shape hull (.arc c radius a a false) ir₂ sr₂ = .ok s_cw) :
    s_cc.length = s_cw.length ∧ s_cc.head? = s_cw.head? ∧ 1 ≤ s_cc.length := by
  rw [primitive_to_shape_arc_full] at hcc hcw
  have ecc := Except.ok.inj hcc
  have ecw := Except.ok.inj hcw
  subst ecc; subst ecw
  have hn : 1 ≤ (max 1 (round (radius * (360 - (a - a)) / MAX_SEGMENT_LENGTH))).toNat := by
    have h1 : (1 : ℤ) ≤ max 1 (round (radius * (360 - (a - a)) / MAX_SEGMENT_LENGTH)) :=
      le_max_left _ _
    omega
  obtain ⟨m, hm⟩ : ∃ m,
      (max 1 (round (radius * (360 - (a - a)) / MAX_SEGMENT_LENGTH))).toNat = m + 1 :=
    ⟨(max 1 (round (radius * (360 - (a - a)) / MAX_SEGMENT_LENGTH))).toNat - 1, by omega⟩
  rw [hm]
  refine ⟨?_, ?_, ?_⟩
  · rw [arc_loop_length, arc_loop_length]
  · rw [arc_loop_head, arc_loop_head]
  · rw [arc_loop_length]
    omega

/-- Closed witness for C6 (amended), at a degenerate radius-0 full
circle: one vertex in each direction, equal heads. -/
theorem arc_full_circle_length_head_witness :
    primitive_to_shape (fun l => l) (.arc (0, 0) 0 0 0 true) false false =
        .ok [(⟨0, 0⟩ : V ℝ)] ∧
      primitive_to_shape (fun l => l) (.arc (0, 0) 0 0 0 false) false false =
        .ok [(⟨0, 0⟩ : V ℝ)] ∧
      ([(⟨0, 0⟩ : V ℝ)].length = [(⟨0, 0⟩ : V ℝ)].length ∧
        [(⟨0, 0⟩ : V ℝ)].head? = [(⟨0, 0⟩ : V ℝ)].head? ∧ 1 ≤ [(⟨0, 0⟩ : V ℝ)].length) := by
  have heval : ∀ ccw : Bool,
      primitive_to_shape (fun l => l) (.arc (0, 0) 0 0 0 ccw) false false =
        .ok [(⟨0, 0⟩ : V ℝ)] := by
    intro ccw
    rw [primitive_to_shape_arc_full]
    have h0 : ((0 : ℝ) * (360 - ((0 : ℝ) - 0)) / MAX_SEGMENT_LENGTH) = 0 := by
      rw [MAX_SEGMENT_LENGTH]
      norm_num
    rw [h0]
    norm_num [arc_loop, make_v, roundTo]
  exact ⟨heval true, heval false,
    arc_full_circle_length_head (fun l => l) (0, 0) 0 0 false false false false _ _
      (heval true) (heval false)⟩

/-! ### C2: stitching a pair of 2-vertex lines -/

set_option maxHeartbeats 1000000 in
/-- **C2.** (a) Two 2-vertex open lines sharing an exact endpoint are
stitched into exactly one 3-vertex contour (the shared point appears
once); (b) two 2-vertex lines all four of whose cross endpoint pairs are
at squared distance at least `1e-6` are returned as two separate 2-vertex
open shapes.  Stated over `ℚ` (every Python float is a rational, and the
stitcher only compares coordinates). -/
theorem lines_to_shapes_pair_stitching :
    (∀ a b c d : V ℚ, (a = c ∨ a = d ∨ b = c ∨ b = d) →
      ∃ s, lines_to_shapes [[a, b], [c, d]] = some [s] ∧ s.length = 3) ∧
    (∀ a b c d : V ℚ,
      1 / 1000000 ≤ (c.x - a.x) ^ 2 + (c.y - a.y) ^ 2 →
      1 / 1000000 ≤ (d.x - a.x) ^ 2 + (d.y - a.y) ^ 2 →
      1 / 1000000 ≤ (c.x - b.x) ^ 2 + (c.y - b.y) ^ 2 →
      1 / 1000000 ≤ (d.x - b.x) ^ 2 + (d.y - b.y) ^ 2 →
      lines_to_shapes [[a, b], [c, d]] = some [[a, b], [c, d]]) := by
  constructor
  · intro a b c d hshare
    simp only [lines_to_shapes, List.length_cons, List.length_nil, Nat.reduceAdd]
    have htol : (0 : ℚ) < (1 / 1000) ^ 2 := by norm_num
    have hpos : ∀ u w : V ℚ, ¬ ((u.x - w.x) ^ 2 + (u.y - w.y) ^ 2 < (0 : ℚ)) :=
      fun u w => not_lt.mpr (by positivity)
    rcases hshare with rfl | rfl | rfl | rfl
    · -- a = c (the pool line is [a, d])
      have h0 : ((a.x - a.x) ^ 2 + (a.y - a.y) ^ 2 : ℚ) = 0 := by ring
      simp [h0, htol, hpos, find_line_closest_to_point, find_go, scan_vertices,
        stitch_go, List.getLastD]
    · -- a = d (the pool line is [c, a])
      have h0 : ((a.x - a.x) ^ 2 + (a.y - a.y) ^ 2 : ℚ) = 0 := by ring
      by_cases hc : (c.x - a.x) ^ 2 + (c.y - a.y) ^ 2 < ((1000 : ℚ) ^ 2)⁻¹
      · by_cases h0c : (0 : ℚ) < (c.x - a.x) ^ 2 + (c.y - a.y) ^ 2
        · simp [h0, htol, hpos, hc, h0c, find_line_closest_to_point, find_go,
            scan_vertices, stitch_go, List.getLastD]
        · simp [h0, htol, hpos, hc, h0c, find_line_closest_to_point, find_go,
            scan_vertices, stitch_go, List.getLastD]
      · simp [h0, htol, hpos, hc, find_line_closest_to_point, find_go,
          scan_vertices, stitch_go, List.getLastD]
    · -- b = c (the pool line is [b, d])
      have h0 : ((b.x - b.x) ^ 2 + (b.y - b.y) ^ 2 : ℚ) = 0 := by ring
      by_cases hb : (b.x - a.x) ^ 2 + (b.y - a.y) ^ 2 < ((1000 : ℚ) ^ 2)⁻¹
      · by_cases hcc : (d.x - a.x) ^ 2 + (d.y - a.y) ^ 2 < (b.x - a.x) ^ 2 + (b.y - a.y) ^ 2
        · by_cases hct : (d.x - a.x) ^ 2 + (d.y - a.y) ^ 2 < ((1000 : ℚ) ^ 2)⁻¹
          · simp [h0, htol, hpos, hb, hcc, hct, find_line_closest_to_point, find_go,
              scan_vertices, stitch_go, List.getLastD]
          · simp [h0, htol, hpos, hb, hcc, hct, find_line_closest_to_point, find_go,
              scan_vertices, stitch_go, List.getLastD]
        · simp [h0, htol, hpos, hb, hcc, find_line_closest_to_point, find_go,
            scan_vertices, stitch_go, List.getLastD]
      · by_cases hct : (d.x - a.x) ^ 2 + (d.y - a.y) ^ 2 < ((1000 : ℚ) ^ 2)⁻¹
        · simp [h0, htol, hpos, hb, hct, find_line_closest_to_point, find_go,
            scan_vertices, stitch_go, List.getLastD]
        · simp [h0, htol, hpos, hb, hct, find_line_closest_to_point, find_go,
            scan_vertices, stitch_go, List.getLastD]
    · -- b = d (the pool line is [c, b])
      have h0 : ((b.x - b.x) ^ 2 + (b.y - b.y) ^ 2 : ℚ) = 0 := by ring
      by_cases hc : (c.x - a.x) ^ 2 + (c.y - a.y) ^ 2 < ((1000 : ℚ) ^ 2)⁻¹
      · by_cases hbc : (b.x - a.x) ^ 2 + (b.y - a.y) ^ 2 < (c.x - a.x) ^ 2 + (c.y - a.y) ^ 2
        · by_cases hbt : (b.x - a.x) ^ 2 + (b.y - a.y) ^ 2 < ((1000 : ℚ) ^ 2)⁻¹
          · simp [h0, htol, hpos, hc, hbc, hbt, find_line_closest_to_point, find_go,
              scan_vertices, stitch_go, List.getLastD]
          · simp [h0, htol, hpos, hc, hbc, hbt, find_line_closest_to_point, find_go,
              scan_vertices, stitch_go, List.getLastD]
        · simp [h0, htol, hpos, hc, hbc, find_line_closest_to_point, find_go,
            scan_vertices, stitch_go, List.getLastD]
      · by_cases hbt : (b.x - a.x) ^ 2 + (b.y - a.y) ^ 2 < ((1000 : ℚ) ^ 2)⁻¹
        · simp [h0, htol, hpos, hc, hbt, find_line_closest_to_point, find_go,
            scan_vertices, stitch_go, List.getLastD]
        · by_cases hcbt : (c.x - b.x) ^ 2 + (c.y - b.y) ^ 2 < ((1000 : ℚ) ^ 2)⁻¹
          · by_cases h0cb : (0 : ℚ) < (c.x - b.x) ^ 2 + (c.y - b.y) ^ 2
            · simp [h0, htol, hpos, hc, hbt, hcbt, h0cb, find_line_closest_to_point,
                find_go, scan_vertices, stitch_go, List.getLastD]
            · simp [h0, htol, hpos, hc, hbt, hcbt, h0cb, find_line_closest_to_point,
                find_go, scan_vertices, stitch_go, List.getLastD]
          · simp [h0, htol, hpos, hc, hbt, hcbt, find_line_closest_to_point,
              find_go, scan_vertices, stitch_go, List.getLastD]
  · intro a b c d h1 h2 h3 h4
    simp only [lines_to_shapes, List.length_cons, List.length_nil, Nat.reduceAdd]
    have k1 : ¬ ((c.x - a.x) ^ 2 + (c.y - a.y) ^ 2 < ((1000 : ℚ) ^ 2)⁻¹) :=
      not_lt.mpr (le_trans (by norm_num) h1)
    have k2 : ¬ ((d.x - a.x) ^ 2 + (d.y - a.y) ^ 2 < ((1000 : ℚ) ^ 2)⁻¹) :=
      not_lt.mpr (le_trans (by norm_num) h2)
    have k3 : ¬ ((c.x - b.x) ^ 2 + (c.y - b.y) ^ 2 < ((1000 : ℚ) ^ 2)⁻¹) :=
      not_lt.mpr (le_trans (by norm_num) h3)
    have k4 : ¬ ((d.x - b.x) ^ 2 + (d.y - b.y) ^ 2 < ((1000 : ℚ) ^ 2)⁻¹) :=
      not_lt.mpr (le_trans (by norm_num) h4)
    simp [k1, k2, k3, k4, find_line_closest_to_point, find_go, scan_vertices,
      stitch_go, List.getLastD]

/-- Closed witness for C2: a concrete shared-endpoint pair and a concrete
far-apart pair. -/
theorem lines_to_shapes_pair_stitching_witness :
    ((⟨1, 0⟩ : V ℚ) = ⟨1, 0⟩ ∧
      (∃ s, lines_to_shapes [[(⟨0, 0⟩ : V ℚ), ⟨1, 0⟩], [⟨1, 0⟩, ⟨1, 1⟩]] = some [s] ∧
        s.length = 3)) ∧
    lines_to_shapes [[(⟨0, 0⟩ : V ℚ), ⟨1, 0⟩], [⟨5, 5⟩, ⟨6, 5⟩]] =
      some [[⟨0, 0⟩, ⟨1, 0⟩], [⟨5, 5⟩, ⟨6, 5⟩]] := by
  refine ⟨⟨rfl, ?_⟩, ?_⟩
  · exact lines_to_shapes_pair_stitching.1 ⟨0, 0⟩ ⟨1, 0⟩ ⟨1, 0⟩ ⟨1, 1⟩
      (Or.inr (Or.inr (Or.inl rfl)))
  · exact lines_to_shapes_pair_stitching.2 ⟨0, 0⟩ ⟨1, 0⟩ ⟨5, 5⟩ ⟨6, 5⟩
      (by norm_num) (by norm_num) (by norm_num) (by norm_num)

/-! ### C10: an empty shape in the stitcher pool -/

section StitcherEmpty

variable {α : Type} [LinearOrderedField α]

/-- The inner vertex scan is the identity on an empty vertex list. -/
theorem scan_vertices_nil (point : V α) (full : List (V α)) (li vi : ℕ)
    (st : Option α × ClosestInfo α) :
    scan_vertices point full li [] vi st = st := by
  rw [scan_vertices]

/-- The inner vertex scan only ever installs its own line index. -/
theorem scan_vertices_index (point : V α) (full : List (V α)) (li : ℕ) :
    ∀ (l : List (V α)) (vi : ℕ) (st : Option α × ClosestInfo α) (j : ℕ),
      (scan_vertices point full li l vi st).2.closest_line_index = some j →
      st.2.closest_line_index = some j ∨ j = li := by
  intro l
  induction l with
  | nil =>
      intro vi st j h
      rw [scan_vertices_nil] at h
      exact Or.inl h
  | cons v rest ih =>
      intro vi st j h
      rw [scan_vertices] at h
      rcases ih _ _ _ h with h2 | h2
      · by_cases hcond :
          ((match st.1 with
            | none => true
            | some dd => decide ((v.x - point.x) ^ 2 + (v.y - point.y) ^ 2 < dd)) &&
              decide ((v.x - point.x) ^ 2 + (v.y - point.y) ^ 2 < (1 / 1000 : α) ^ 2)) = true
        · rw [if_pos hcond] at h2
          exact Or.inr (Option.some.inj h2).symm
        · rw [if_neg hcond] at h2
          exact Or.inl h2
      · exact Or.inr h2

/-- The outer line scan only installs indices of non-empty lines. -/
theorem find_go_index (point : V α) :
    ∀ (lines : List (List (V α))) (li : ℕ) (st : Option α × ClosestInfo α) (j : ℕ),
      (find_go point lines li st).2.closest_line_index = some j →
      st.2.closest_line_index = some j ∨
        ∃ k, ∃ h : k < lines.length, li + k = j ∧ lines.get ⟨k, h⟩ ≠ ([] : List (V α)) := by
  intro lines
  induction lines with
  | nil =>
      intro li st j h
      rw [find_go] at h
      exact Or.inl h
  | cons line rest ih =>
      intro li st j h
      rw [find_go] at h
      rcases ih _ _ _ h with h2 | ⟨k, hk, hkj, hne⟩
      · by_cases hline : line = ([] : List (V α))
        · subst hline
          rw [scan_vertices_nil] at h2
          exact Or.inl h2
        · rcases scan_vertices_index point line li line 0 st j h2 with h3 | h3
          · exact Or.inl h3
          · refine Or.inr ⟨0, by simp, by omega, ?_⟩
            simpa using hline
      · refine Or.inr ⟨k + 1, by simpa using hk, by omega, ?_⟩
        simpa using hne

/-- If `find_line_closest_to_point` reports a closest line, that line is
a non-empty member of the pool. -/
theorem find_index_nonempty (point : V α) (pool : List (List (V α))) (j : ℕ)
    (h : (find_line_closest_to_point point pool).closest_line_index = some j) :
    ∃ hj : j < pool.length, pool.get ⟨j, hj⟩ ≠ ([] : List (V α)) := by
  unfold find_line_closest_to_point at h
  rcases find_go_index point pool 0 _ j h with h2 | ⟨k, hk, hkj, hne⟩
  · simp at h2
  · have : k = j := by omega
    subst this
    exact ⟨hk, hne⟩

/-- Erasing an index whose entry differs from `x` keeps `x` in the list. -/
theorem mem_eraseIdx_of_get_ne {β : Type} (x : β) :
    ∀ (l : List β) (i : ℕ) (hi : i < l.length),
      x ∈ l → l.get ⟨i, hi⟩ ≠ x → x ∈ l.eraseIdx i := by
  intro l
  induction l with
  | nil => intro i hi; simp at hi
  | cons a t ih =>
      intro i hi hx hne
      cases i with
      | zero =>
          simp only [List.eraseIdx_cons_zero]
          rcases List.mem_cons.mp hx with rfl | hxt
          · exact absurd rfl hne
          · exact hxt
      | succ k =>
          simp only [List.eraseIdx_cons_succ]
          rcases List.mem_cons.mp hx with rfl | hxt
          · exact List.mem_cons_self _ _
          · exact List.mem_cons_of_mem _
              (ih k (by simpa using hi) hxt (by simpa using hne))

/-- The stitching loop diverges into the `IndexError` case (`none`)
whenever the current shape is empty or some pooled line is empty. -/
theorem stitch_go_none_of_empty :
    ∀ (fuel : ℕ) (shape : List (V α)) (pool : List (List (V α)))
      (acc : List (List (V α))),
      (shape = [] ∨ ([] : List (V α)) ∈ pool) →
      stitch_go fuel shape pool acc = none := by
  intro fuel
  induction fuel with
  | zero => intro shape pool acc _; rw [stitch_go]
  | succ n ih =>
      intro shape pool acc hcase
      have hshape : shape = [] ∨ ∃ s0 srest, shape = s0 :: srest := by
        cases shape with
        | nil => exact Or.inl rfl
        | cons s0 srest => exact Or.inr ⟨s0, srest, rfl⟩
      rcases hshape with rfl | ⟨s0, srest, rfl⟩
      · simp [stitch_go]
      · rcases hcase with habs | hmem
        · exact absurd habs (List.cons_ne_nil _ _)
        · rw [stitch_go.eq_def]
          dsimp only
          cases hidx : (find_line_closest_to_point s0 pool).closest_line_index with
          | some i =>
              simp only [hidx]
              obtain ⟨hi, hne⟩ := find_index_nonempty s0 pool i hidx
              exact ih _ _ _ (Or.inr (mem_eraseIdx_of_get_ne _ pool i hi hmem hne))
          | none =>
              simp only [hidx]
              cases hidx2 : (find_line_closest_to_point
                  ((s0 :: srest).getLastD s0) pool).closest_line_index with
              | some i =>
                  simp only [hidx2]
                  obtain ⟨hi, hne⟩ := find_index_nonempty _ pool i hidx2
                  exact ih _ _ _ (Or.inr (mem_eraseIdx_of_get_ne _ pool i hi hmem hne))
              | none =>
                  simp only [hidx2]
                  cases pool with
                  | nil => simp at hmem
                  | cons next rest =>
                      rcases List.mem_cons.mp hmem with heq | hmem2
                      · exact ih _ _ _ (Or.inl heq.symm)
                      · exact ih _ _ _ (Or.inr hmem2)

end StitcherEmpty

/-- **C10.** A Comment primitive contributes the empty shape, which the
`create_cutouts` primitive loop routes into the line pool (its length is
not `> 2`); and `lines_to_shapes` fails (the `shape[0]` `IndexError`,
modelled as `none`) on every input pool containing a zero-vertex shape,
so it returns normally only when every pooled shape is non-empty. -/
theorem comment_shape_breaks_stitcher :
    (∀ hull : List (V ℝ) → List (V ℝ),
        process_solder_primitives hull [Prim.amComment] false = .ok ([], [[]])) ∧
    (∀ {α : Type} [LinearOrderedField α] (lines : List (List (V α))),
        ([] : List (V α)) ∈ lines → lines_to_shapes lines = none) := by
  constructor
  · intro hull
    rw [process_solder_primitives]
    · rw [primitive_to_shape]
      rw [process_solder_primitives]
      rfl
    · exact fun h => Prim.noConfusion h
  · intro α _ lines hmem
    cases lines with
    | nil => simp at hmem
    | cons first rest =>
        rw [lines_to_shapes]
        rcases List.mem_cons.mp hmem with heq | hmem2
        · exact stitch_go_none_of_empty _ _ _ _ (Or.inl heq.symm)
        · exact stitch_go_none_of_empty _ _ _ _ (Or.inr hmem2)

/-- Closed witness for C10: the singleton pool holding one empty shape. -/
theorem comment_shape_breaks_stitcher_witness :
    (([] : List (V ℚ)) ∈ [([] : List (V ℚ))]) ∧
      lines_to_shapes [([] : List (V ℚ))] = none := by
  refine ⟨by simp, ?_⟩
  exact comment_shape_breaks_stitcher.2 _ (by simp)

/-! ### C9: Group primitives -/

/-- **C9 (counterexample).** The converter itself does *not* return an
empty shape for a Group primitive: it raises (the final
`NotImplementedError` branch), contradicting the claim that the
conversion contributes an empty shape. -/
theorem group_primitive_counterexample :
    primitive_to_shape (fun l => l) .amGroup false false = .error .unsupportedPrimitive ∧
      ¬ primitive_to_shape (fun l => l) .amGroup false false = .ok ([] : List (V ℝ)) := by
  have h : primitive_to_shape (fun l => l) .amGroup false false =
      .error .unsupportedPrimitive := by
    rw [primitive_to_shape]
  refine ⟨h, ?_⟩
  rw [h]
  exact fun hh => Except.noConfusion hh

/-- **C9 (amended).** The layer loops (`create_cutouts`' primitive loop,
and likewise `outline_shape_from_file`) skip Group primitives *before*
conversion, contributing no shape at all (not even an empty one) and
printing a diagnostic; processing a layer containing a Group primitive
therefore never fails because of it — the result is exactly that of the
layer with the Group removed. -/
theorem group_primitive_skipped (hull : List (V ℝ) → List (V ℝ)) :
    ∀ (pre post : List Prim) (sr : Bool),
      process_solder_primitives hull (pre ++ Prim.amGroup :: post) sr =
        process_solder_primitives hull (pre ++ post) sr := by
  intro pre
  induction pre with
  | nil =>
      intro post sr
      simp only [List.nil_append]
      rw [process_solder_primitives]
  | cons p rest ih =>
      intro post sr
      simp only [List.cons_append]
      cases p <;> simp only [process_solder_primitives, ih]

/-! ### C4: flash statement replay errors and ignored statements -/

/-- **C4.** During statement replay in `create_cutouts`: (i) a flash
(`D03`/`D3`) with no aperture selected fails with the no-aperture error;
(ii) a flash whose selected aperture's shape is none of `C`, `R`, `O` or
a defined macro name fails with the unsupported-aperture error; (iii)
`COORD` statements with any other op, `PARAM` statements with any other
param, and statements of any other type are ignored without error and
without changing any interpreter state; (iv) a failing statement aborts
the whole replay with its error. -/
theorem flash_statement_errors (hull : List (V ℝ) → List (V ℝ)) :
    (∀ (st : CutoutState) (op : String) (x y : Option ℝ),
        (op = "D03" ∨ op = "D3") → aperture_not_set st.current_aperture = true →
        cutout_step hull st (.coord op x y) = .error .noApertureSelected) ∧
    (∀ (st : CutoutState) (op : String) (x y : Option ℝ) (dcode : ℕ) (ap : ApertureDef),
        (op = "D03" ∨ op = "D3") → st.current_aperture = some dcode → dcode ≠ 0 →
        st.apertures.lookup dcode = some ap →
        ap.shape ≠ "C" → ap.shape ≠ "R" → ap.shape ≠ "O" →
        st.aperture_macros.lookup ap.shape = none →
        cutout_step hull st (.coord op x y) = .error .unsupportedApertureShape) ∧
    (∀ st : CutoutState,
        cutout_step hull st .other = .ok st ∧
        cutout_step hull st .paramOther = .ok st ∧
        (∀ (op : String) (x y : Option ℝ),
          op ≠ "D02" → op ≠ "D2" → op ≠ "D03" → op ≠ "D3" →
          cutout_step hull st (.coord op x y) = .ok st)) ∧
    (∀ (st : CutoutState) (s : Statement) (rest : List Statement) (e : ConvError),
        cutout_step hull st s = .error e →
        cutout_replay hull (s :: rest) st = .error e) := by
  refine ⟨?_, ?_, ?_, ?_⟩
  · intro st op x y hop hnotset
    rcases hop with rfl | rfl <;>
      simp [cutout_step, hnotset]
  · intro st op x y dcode ap hop hcur hdc hlookup hC hR hO hmac
    rcases hop with rfl | rfl <;>
      simp [cutout_step, aperture_not_set, hcur, hdc, hlookup, hC, hR, hO, hmac]
  · intro st
    refine ⟨by rw [cutout_step], by rw [cutout_step], ?_⟩
    intro op x y h02 h2 h03 h3
    simp [cutout_step, h02, h2, h03, h3]
  · intro st s rest e herr
    rw [cutout_replay, List.foldlM_cons, herr]
    rfl

/-- Closed witness for C4: concrete states exercising conjuncts (i),
(ii), (iii) and (iv). -/
theorem flash_statement_errors_witness :
    (("D03" = "D03" ∨ ("D03" : String) = "D3") ∧
      aperture_not_set initialCutoutState.current_aperture = true ∧
      cutout_step (fun l => l) initialCutoutState (.coord "D03" none none) =
        .error .noApertureSelected) ∧
    (cutout_step (fun l => l)
        (⟨[(10, ⟨"X", []⟩)], [], some 10, 0, 0, []⟩ : CutoutState)
        (.coord "D03" none none) = .error .unsupportedApertureShape) ∧
    cutout_step (fun l => l) initialCutoutState .other = .ok initialCutoutState ∧
    cutout_replay (fun l => l) [.coord "D03" none none] initialCutoutState =
      .error .noApertureSelected := by
  have hi := (flash_statement_errors (fun l => l)).1 initialCutoutState "D03" none none
    (Or.inl rfl) rfl
  refine ⟨⟨Or.inl rfl, rfl, hi⟩, ?_, ?_, ?_⟩
  · exact (flash_statement_errors (fun l => l)).2.1
      (⟨[(10, ⟨"X", []⟩)], [], some 10, 0, 0, []⟩ : CutoutState) "D03" none none 10 ⟨"X", []⟩
      (Or.inl rfl) rfl (by decide) (by simp [List.lookup])
      (by decide) (by decide) (by decide) rfl
  · exact ((flash_statement_errors (fun l => l)).2.2.1 initialCutoutState).1
  · exact (flash_statement_errors (fun l => l)).2.2.2 initialCutoutState
      (.coord "D03" none none) [] .noApertureSelected hi

/-! ### C5: the ledge assembly -/

/-- The spec's half-ledge cutter: the bounding box of the ledge shape
with the half on the far side of the *shorter* axis cut away — when the
box is wider than tall the cutter keeps (and thus removes) the lower
half; otherwise (including the width = height tie) the left half. -/
noncomputable def spec_ledge_cutter (ledge_shape : List (V ℝ)) : Rect4 :=
  let bb := bounding_box ledge_shape 0 0 0
  let height := |bb.c1.y - bb.c0.y|
  let width := |bb.c0.x - bb.c3.x|
  if width > height then
    ⟨bb.c0, ⟨bb.c1.x, bb.c1.y - height / 2⟩, ⟨bb.c2.x, bb.c2.y - height / 2⟩, bb.c3⟩
  else
    ⟨bb.c0, bb.c1, ⟨bb.c2.x - width / 2, bb.c2.y⟩, ⟨bb.c3.x - width / 2, bb.c3.y⟩⟩

/-- **C5.** With a ledge requested, the assembler offsets the (possibly
gap-enlarged) outline outward by exactly `1.2`, builds the ledge region
as `(offset outline polygon) - (outline polygon)`, subtracts the
half-bounding-box cutter of `spec_ledge_cutter`, extrudes, and unions
with the stencil; and when the cutter bounding box's width equals its
height, the `width > height` test is false, so the height-side (else)
branch of the cutter is taken. -/
theorem ledge_assembly
    (offset_points : List (V ℝ) → ℝ → Bool → List (V ℝ))
    (outline_shape0 : List (V ℝ)) (cutout_polygon0 : Scad)
    (stencil_thickness ledge_thickness gap : ℝ) (include_frame : Bool)
    (frame_width frame_height frame_thickness : ℝ) (flip_stencil : Bool)
    (outline_shape : List (V ℝ)) (outline_offset : V ℝ)
    (outline_polygon cutout_polygon : Scad) (ledge_shape : List (V ℝ))
    (hshape : outline_shape =
      if gap ≠ 0 then conv_offset_shape offset_points outline_shape0 gap false
      else outline_shape0)
    (hoff : outline_offset = (bounding_box outline_shape 0 0 0).c0.add
        (((bounding_box outline_shape 0 0 0).c2.sub
          (bounding_box outline_shape 0 0 0).c0).sdiv 2))
    (hop : outline_polygon =
      if flip_stencil then
        Scad.mirror (-1, 0, 0) (Scad.translate (-outline_offset.x, -outline_offset.y, 0)
          (Scad.polygon (outline_shape.map V.as_tuple)))
      else
        Scad.translate (-outline_offset.x, -outline_offset.y, 0)
          (Scad.polygon (outline_shape.map V.as_tuple)))
    (hcp : cutout_polygon =
      if flip_stencil then
        Scad.mirror (-1, 0, 0)
          (Scad.translate (-outline_offset.x, -outline_offset.y, 0) cutout_polygon0)
      else Scad.translate (-outline_offset.x, -outline_offset.y, 0) cutout_polygon0)
    (hledge : ledge_shape = conv_offset_shape offset_points outline_shape (1.2 : ℝ) false) :
    process_gerber_body offset_points outline_shape0 cutout_polygon0 stencil_thickness
        true ledge_thickness gap include_frame frame_width frame_height frame_thickness
        flip_stencil =
      Scad.rotateBody 180 (1, 0, 0)
        (Scad.add
          (Scad.down (ledge_thickness - stencil_thickness)
            (Scad.linear_extrude ledge_thickness
              (Scad.diff
                (Scad.diff
                  (Scad.translate (-outline_offset.x, -outline_offset.y, 0)
                    (Scad.polygon (ledge_shape.map V.as_tuple)))
                  outline_polygon)
                (Scad.translate (-outline_offset.x, -outline_offset.y, 0)
                  (Scad.polygon ((spec_ledge_cutter ledge_shape).toList.map V.as_tuple))))))
          (Scad.linear_extrude stencil_thickness (Scad.diff outline_polygon cutout_polygon))) ∧
    (∀ ls : List (V ℝ),
      |(bounding_box ls 0 0 0).c0.x - (bounding_box ls 0 0 0).c3.x| =
        |(bounding_box ls 0 0 0).c1.y - (bounding_box ls 0 0 0).c0.y| →
      spec_ledge_cutter ls =
        ⟨(bounding_box ls 0 0 0).c0, (bounding_box ls 0 0 0).c1,
         ⟨(bounding_box ls 0 0 0).c2.x -
            |(bounding_box ls 0 0 0).c0.x - (bounding_box ls 0 0 0).c3.x| / 2,
          (bounding_box ls 0 0 0).c2.y⟩,
         ⟨(bounding_box ls 0 0 0).c3.x -
            |(bounding_box ls 0 0 0).c0.x - (bounding_box ls 0 0 0).c3.x| / 2,
          (bounding_box ls 0 0 0).c3.y⟩⟩) := by
  constructor
  · subst hledge hcp hop hoff hshape
    rw [process_gerber_body, spec_ledge_cutter]
    simp only [if_true]
  · intro ls htie
    rw [spec_ledge_cutter]
    rw [if_neg (not_lt.mpr (le_of_eq htie))]

/-- Closed witness for C5: the unit square's ledge bounding box has
width = height, so the tie takes the else (height-side) branch of the
cutter. -/
theorem ledge_assembly_witness :
    (|(bounding_box [(⟨0, 0⟩ : V ℝ), ⟨1, 0⟩, ⟨1, 1⟩, ⟨0, 1⟩] 0 0 0).c0.x -
        (bounding_box [(⟨0, 0⟩ : V ℝ), ⟨1, 0⟩, ⟨1, 1⟩, ⟨0, 1⟩] 0 0 0).c3.x| =
      |(bounding_box [(⟨0, 0⟩ : V ℝ), ⟨1, 0⟩, ⟨1, 1⟩, ⟨0, 1⟩] 0 0 0).c1.y -
        (bounding_box [(⟨0, 0⟩ : V ℝ), ⟨1, 0⟩, ⟨1, 1⟩, ⟨0, 1⟩] 0 0 0).c0.y|) ∧
    spec_ledge_cutter [(⟨0, 0⟩ : V ℝ), ⟨1, 0⟩, ⟨1, 1⟩, ⟨0, 1⟩] =
      ⟨(bounding_box [(⟨0, 0⟩ : V ℝ), ⟨1, 0⟩, ⟨1, 1⟩, ⟨0, 1⟩] 0 0 0).c0,
       (bounding_box [(⟨0, 0⟩ : V ℝ), ⟨1, 0⟩, ⟨1, 1⟩, ⟨0, 1⟩] 0 0 0).c1,
       ⟨(bounding_box [(⟨0, 0⟩ : V ℝ), ⟨1, 0⟩, ⟨1, 1⟩, ⟨0, 1⟩] 0 0 0).c2.x -
          |(bounding_box [(⟨0, 0⟩ : V ℝ), ⟨1, 0⟩, ⟨1, 1⟩, ⟨0, 1⟩] 0 0 0).c0.x -
            (bounding_box [(⟨0, 0⟩ : V ℝ), ⟨1, 0⟩, ⟨1, 1⟩, ⟨0, 1⟩] 0 0 0).c3.x| / 2,
        (bounding_box [(⟨0, 0⟩ : V ℝ), ⟨1, 0⟩, ⟨1, 1⟩, ⟨0, 1⟩] 0 0 0).c2.y⟩,
       ⟨(bounding_box [(⟨0, 0⟩ : V ℝ), ⟨1, 0⟩, ⟨1, 1⟩, ⟨0, 1⟩] 0 0 0).c3.x -
          |(bounding_box [(⟨0, 0⟩ : V ℝ), ⟨1, 0⟩, ⟨1, 1⟩, ⟨0, 1⟩] 0 0 0).c0.x -
            (bounding_box [(⟨0, 0⟩ : V ℝ), ⟨1, 0⟩, ⟨1, 1⟩, ⟨0, 1⟩] 0 0 0).c3.x| / 2,
        (bounding_box [(⟨0, 0⟩ : V ℝ), ⟨1, 0⟩, ⟨1, 1⟩, ⟨0, 1⟩] 0 0 0).c3.y⟩⟩ := by
  have htie : |(bounding_box [(⟨0, 0⟩ : V ℝ), ⟨1, 0⟩, ⟨1, 1⟩, ⟨0, 1⟩] 0 0 0).c0.x -
      (bounding_box [(⟨0, 0⟩ : V ℝ), ⟨1, 0⟩, ⟨1, 1⟩, ⟨0, 1⟩] 0 0 0).c3.x| =
      |(bounding_box [(⟨0, 0⟩ : V ℝ), ⟨1, 0⟩, ⟨1, 1⟩, ⟨0, 1⟩] 0 0 0).c1.y -
        (bounding_box [(⟨0, 0⟩ : V ℝ), ⟨1, 0⟩, ⟨1, 1⟩, ⟨0, 1⟩] 0 0 0).c0.y| := by
    simp [bounding_box, list_min, list_max]
  exact ⟨htie,
    (ledge_assembly (fun s _ _ => s) [] (Scad.polygon []) 0 0 0 false 0 0 0 false
      _ _ _ _ _ rfl rfl rfl rfl rfl).2 _ htie⟩
